import Mathlib

/-
Verification of the spy-bot game session engine.

The definitions below are a shallow embedding of the Python sources
src/spy_bot.py and src/game/game_logic.py.  Python dicts with insertion
order are modelled as association lists, dict key sets as the list of
first components, and every call to the random module is modelled by an
explicit numeric argument: random.choice over a list of length n is the
element at index (seed % n), so a property holding for every seed holds
for every possible draw, and every element is picked by some seed.
-/

/-- Phase field of the spy_bot game dict: the string values
mode_select, waiting and started used by the handlers. -/
inductive GState where
  | modeSelect
  | waiting
  | started
deriving DecidableEq, Repr

/-- Value of the spy field of the game dict.  In normal and
double-agent modes it is a single user id, in team and chaos modes a
list of user ids, and None before the game starts. -/
inductive SpyVal where
  | noneV
  | one (uid : Nat)
  | many (uids : List Nat)
deriving DecidableEq, Repr

/-- Python test chosen == game.get(spy).  Comparing an int with a list
or with None yields False in Python, so only the single-id case can
succeed. -/
def pyEqSpy (uid : Nat) : SpyVal → Bool
  | .one n => uid == n
  | _ => false

/-- Python test player_id in game(spy) when the spy field holds a list,
as used by the was_spy computation of end_game. -/
def spyListMem (uid : Nat) : SpyVal → Bool
  | .many ns => ns.contains uid
  | _ => false

/-- The game dict created by newgame and mutated by the handlers of
spy_bot.py.  Timestamps (created_at) are not represented. -/
structure Game where
  players : List (Nat × String)
  state : GState
  mode : Option String
  location : Option String
  spy : SpyVal
  doubleAgent : List Nat
  votes : List (Nat × Nat)
  host : Nat
  awaitingGuess : Bool
deriving DecidableEq, Repr

/-- Key set of an association list, in insertion order. -/
def keys {α : Type} (l : List (Nat × α)) : List Nat := l.map Prod.fst

/-- Mode configuration from the GAME_MODES table of spy_bot.py. -/
structure ModeConfig where
  discussionTime : Nat
  votingTime : Nat
  guessTime : Nat
  minPlayers : Nat
  special : Option String
deriving DecidableEq, Repr

/-- GAME_MODES lookup with the default used by the code,
GAME_MODES.get(mode, GAME_MODES[normal]). -/
def gameModes (modeId : String) : ModeConfig :=
  if modeId = "speed" then ⟨120, 30, 20, 3, none⟩
  else if modeId = "marathon" then ⟨600, 90, 45, 4, none⟩
  else if modeId = "team_spy" then ⟨300, 60, 30, 6, some "two_spies"⟩
  else if modeId = "double_agent" then ⟨300, 60, 30, 4, some "double_agent"⟩
  else if modeId = "chaos" then ⟨360, 75, 40, 8, some "chaos"⟩
  else ⟨300, 60, 30, 3, none⟩

/-- Mode config of a game, GAME_MODES.get(game[mode], GAME_MODES[normal]). -/
def modeConfigOf (g : Game) : ModeConfig :=
  match g.mode with
  | some m => gameModes m
  | none => gameModes "normal"

/-- The LOCATIONS table of spy_bot.py flattened in dict insertion
order, as built by the comprehension in get_random_location. -/
def allLocations : List String :=
  ["Bank", "Train Station", "Police Station", "Fire Station",
   "Shopping Mall", "Parking Garage", "Post Office", "Apartment Complex",
   "Metro Station", "Taxi Stand", "Highway Toll Booth", "Train Compartment",
   "University", "Kindergarten", "Science Lab", "Art Studio",
   "Debate Hall", "Library", "School",
   "Hospital", "Dentist Office", "Pharmacy",
   "Veterinary Clinic", "Psychiatric Hospital",
   "Airport", "Space Station", "Cruise Ship",
   "Border Checkpoint", "Ferry Terminal", "Airplane",
   "Cinema", "Ice Cream Shop", "Nightclub", "Game Arcade",
   "Buffet Restaurant", "Karaoke Bar", "Bowling Alley", "Theme Park",
   "Wizard School", "Supervillain Lair", "Zombie Apocalypse Shelter",
   "Pirate Ship", "Alien Planet", "Time Machine",
   "Roman Colosseum", "Medieval Castle", "Ancient Pyramid",
   "World War Bunker", "Samurai Dojo", "Wild West Saloon",
   "Nuclear Reactor", "Control Room", "Space Research Center",
   "Submarine", "Secret Lab", "Particle Accelerator",
   "Beach", "Forest Camp", "Waterfall", "Hiking Trail",
   "Farm", "Desert Camp", "Jungle Safari"]

/-- get_random_location with no category: random.choice over the full
flattened pool; the draw is the explicit seed argument. -/
def get_random_location (seed : Nat) : String :=
  allLocations.getD (seed % allLocations.length) ""

/-- vote_callback of spy_bot.py restricted to one game: checks that the
game is in state started, that the voter is a player and that the voter
has not voted yet, then records votes(voter) = target.  The target is
taken from the callback data and is not checked against the roster. -/
def vote_callback (g : Game) (voter target : Nat) : Bool × Game :=
  if g.state ≠ .started then (false, g)
  else if ¬ (keys g.players).contains voter then (false, g)
  else if (keys g.votes).contains voter then (false, g)
  else (true, { g with votes := g.votes ++ [(voter, target)] })

/-- Completion test of vote_callback, len(votes) == len(players),
which is the condition that triggers finish_vote early. -/
def votingComplete (g : Game) : Bool := g.votes.length == g.players.length

/-- Game state of the game_logic.py variant, as stored in the database
row: status string, player id list, votes dict and spy id. -/
structure GLGame where
  status : String
  players : List Nat
  votes : List (Nat × Nat)
  spyId : Nat
deriving DecidableEq, Repr

/-- GameLogic.cast_vote: requires status voting, voter in players,
target in players and voter not yet in votes; on success records the
vote, otherwise returns False and changes nothing. -/
def cast_vote (g : GLGame) (voter target : Nat) : Bool × GLGame :=
  if g.status ≠ "voting" then (false, g)
  else if ¬ g.players.contains voter then (false, g)
  else if ¬ g.players.contains target then (false, g)
  else if (keys g.votes).contains voter then (false, g)
  else (true, { g with votes := g.votes ++ [(voter, target)] })

/-- Folding a sequence of vote_callback calls over a game, keeping the
resulting game state after each call. -/
def applyVotes (g : Game) (calls : List (Nat × Nat)) : Game :=
  calls.foldl (fun h c => (vote_callback h c.1 c.2).2) g

/-- Values of the votes dict in voter insertion order, votes.values(). -/
def voteValues (votes : List (Nat × Nat)) : List Nat := votes.map Prod.snd

/-- Key order of the vote_counts dict built by finish_vote (and of the
Counter used by calculate_results): targets in order of first
occurrence among the vote values. -/
def firstSeenTargets (vs : List Nat) : List Nat :=
  vs.foldl (fun acc v => if acc.contains v then acc else acc ++ [v]) []

/-- vote_counts.get(t, 0): number of votes for a target. -/
def countVotes (vs : List Nat) (t : Nat) : Nat := vs.count t

/-- max(vote_counts.values()). -/
def maxVotes (vs : List Nat) : Nat :=
  ((firstSeenTargets vs).map (countVotes vs)).foldl max 0

/-- The top_voted comprehension of finish_vote: targets holding the
maximal count, in dict insertion order. -/
def topVoted (vs : List Nat) : List Nat :=
  (firstSeenTargets vs).filter (fun t => countVotes vs t == maxVotes vs)

/-- The eliminated player computed by finish_vote: random.choice over
top_voted when several targets tie, else the single top target.  The
random draw is the explicit argument r. -/
def chooseEliminated (votes : List (Nat × Nat)) (r : Nat) : Nat :=
  let tv := topVoted (voteValues votes)
  if tv.length > 1 then tv.getD (r % tv.length) 0 else tv.getD 0 0

/-- Counter(votes.values()).most_common(1)(0)(0) as used by
GameLogic.calculate_results: the first target, in first-encounter
order, whose count is maximal.  Python Counter documents that elements
with equal counts are ordered in the order first encountered, and
most_common(1) takes the first of them. -/
def mostCommon1 (vs : List Nat) : Option Nat :=
  (firstSeenTargets vs).find? (fun t => countVotes vs t == maxVotes vs)

/-- Pure content of GameLogic.calculate_results: the winner string and
the eliminated player id derived from the votes dict and the spy id.
With no votes the spy wins by default and nobody is eliminated. -/
def calculate_results (votes : List (Nat × Nat)) (spyId : Nat) :
    String × Option Nat :=
  if votes = [] then ("spy", none)
  else
    match mostCommon1 (voteValues votes) with
    | some e => (if e = spyId then "civilians" else "spy", some e)
    | none => ("spy", none)

/-- Per-player record written by DatabaseManager.end_game: a player won
the game exactly when the winner string matches the side of the player. -/
def dbPlayerWon (winner : String) (spyId uid : Nat) : Bool :=
  (winner == "spy" && uid == spyId) || (winner == "civilians" && uid != spyId)

/-- Concrete votes dict with a two-way tie between targets 20 and 30,
target 20 seen first. -/
def c6Votes : List (Nat × Nat) := [(1, 20), (2, 30), (3, 30), (4, 20)]

/-- The spy field as a set of impostor ids. -/
def spyIds : SpyVal → List Nat
  | .noneV => []
  | .one n => [n]
  | .many ns => ns

/-- random.sample(l, k) modelled as k successive removals at random
indices: at each step the element at position seed mod current length
is taken and removed, and the seed is consumed by integer division.
Every possible sample is reached by some seed and every seed yields a
sample of elements of l. -/
def sampleList : List Nat → Nat → Nat → List Nat
  | _, 0, _ => []
  | [], _ + 1, _ => []
  | a :: rest, k + 1, seed =>
    (a :: rest).getD (seed % (a :: rest).length) 0 ::
      sampleList ((a :: rest).eraseIdx (seed % (a :: rest).length)) k
        (seed / (a :: rest).length)

/-- A private role message sent to one player when the game begins:
either the spy notification or a civilian message carrying a location
string. -/
inductive Delivery where
  | spyMsg
  | civLoc (loc : String)
deriving DecidableEq, Repr

/-- Common mutation of begin before role assignment: draw the location,
set state started and clear votes and awaiting_guess. -/
def beginCommon (g : Game) (sLoc : Nat) : Game :=
  { g with location := some (get_random_location sLoc),
           state := .started, votes := [], awaitingGuess := false }

/-- The two_spies branch of begin: sample two spies, notify them, send
the canonical location to everyone else. -/
def beginTwoSpies (g : Game) (sLoc sSpy : Nat) :
    Game × List (Nat × Delivery) :=
  let ids := keys g.players
  let spies := sampleList ids 2 sSpy
  ({ beginCommon g sLoc with spy := .many spies, doubleAgent := [] },
    ids.map (fun uid =>
      if spies.contains uid then (uid, Delivery.spyMsg)
      else (uid, Delivery.civLoc (get_random_location sLoc))))

/-- The spy chosen by random.choice(players) in the double_agent and
normal branches of begin. -/
def daSpy (g : Game) (sSpy : Nat) : Nat :=
  (keys g.players).getD (sSpy % (keys g.players).length) 0

/-- remaining = players other than the chosen spy. -/
def daRemaining (g : Game) (sSpy : Nat) : List Nat :=
  (keys g.players).filter (fun p => p != daSpy g sSpy)

/-- The double agent chosen by random.choice(remaining). -/
def daPick (g : Game) (sSpy sDecoy : Nat) : Nat :=
  (daRemaining g sSpy).getD (sDecoy % (daRemaining g sSpy).length) 0

/-- The double_agent branch of begin: one spy by random choice, one
double agent by random choice over the remaining players, and one fake
location drawn by get_random_location over the full pool, with no
exclusion of the canonical location. -/
def beginDoubleAgent (g : Game) (sLoc sSpy sDecoy sFake : Nat) :
    Game × List (Nat × Delivery) :=
  let ids := keys g.players
  let spy := daSpy g sSpy
  let da := daPick g sSpy sDecoy
  let fake := get_random_location sFake
  ({ beginCommon g sLoc with spy := .one spy, doubleAgent := [da] },
    ids.map (fun uid =>
      if uid = spy then (uid, Delivery.spyMsg)
      else if uid = da then (uid, Delivery.civLoc fake)
      else (uid, Delivery.civLoc (get_random_location sLoc))))

/-- The spies sampled by the chaos branch: random.sample of
max(2, n // 3) players. -/
def chaosSpies (g : Game) (sSpy : Nat) : List Nat :=
  sampleList (keys g.players) (max 2 ((keys g.players).length / 3)) sSpy

/-- remaining = players not sampled as spies in the chaos branch. -/
def chaosRemaining (g : Game) (sSpy : Nat) : List Nat :=
  (keys g.players).filter (fun p => ! (chaosSpies g sSpy).contains p)

/-- The double agents sampled by the chaos branch: random.sample of
max(1, m // 3) of the remaining players. -/
def chaosDas (g : Game) (sSpy sDecoy : Nat) : List Nat :=
  sampleList (chaosRemaining g sSpy)
    (max 1 ((chaosRemaining g sSpy).length / 3)) sDecoy

/-- The chaos branch of begin: sample max(2, n/3) spies, then sample
max(1, m/3) double agents from the remaining players; each double
agent receives an independent fake location drawn over the full pool,
the draw for player uid being fakeSeed uid. -/
def beginChaos (g : Game) (sLoc sSpy sDecoy : Nat) (fakeSeed : Nat → Nat) :
    Game × List (Nat × Delivery) :=
  let ids := keys g.players
  let spies := chaosSpies g sSpy
  let das := chaosDas g sSpy sDecoy
  ({ beginCommon g sLoc with spy := .many spies, doubleAgent := das },
    ids.map (fun uid =>
      if spies.contains uid then (uid, Delivery.spyMsg)
      else if das.contains uid then
        (uid, Delivery.civLoc (get_random_location (fakeSeed uid)))
      else (uid, Delivery.civLoc (get_random_location sLoc))))

/-- The normal-mode branch of begin: one spy by random choice, the
canonical location for everyone else. -/
def beginNormal (g : Game) (sLoc sSpy : Nat) :
    Game × List (Nat × Delivery) :=
  let ids := keys g.players
  let spy := ids.getD (sSpy % ids.length) 0
  ({ beginCommon g sLoc with spy := .one spy, doubleAgent := [] },
    ids.map (fun uid =>
      if uid = spy then (uid, Delivery.spyMsg)
      else (uid, Delivery.civLoc (get_random_location sLoc))))

/-- Role assignment and secret delivery performed by begin once its
phase, permission and player-count checks pass, dispatching on the
special field of the mode config exactly as the if chain of the
handler does. -/
def beginAssign (g : Game) (sLoc sSpy sDecoy sFake : Nat)
    (fakeSeed : Nat → Nat) : Game × List (Nat × Delivery) :=
  let sp := (modeConfigOf g).special
  if sp = some "two_spies" then beginTwoSpies g sLoc sSpy
  else if sp = some "double_agent" then beginDoubleAgent g sLoc sSpy sDecoy sFake
  else if sp = some "chaos" then beginChaos g sLoc sSpy sDecoy fakeSeed
  else beginNormal g sLoc sSpy

/-- Private role information sent by the location command. -/
inductive RoleInfo where
  | spyTeam (partners : List Nat)
  | spySolo
  | civilian (loc : String)
deriving DecidableEq, Repr

/-- The location command of spy_bot.py: team spies get their partner
list, a single spy gets the spy notice, a double agent gets a location
freshly drawn from the full pool on every call (draw r), and any other
civilian gets the stored canonical location. -/
def location_command (g : Game) (uid : Nat) (r : Nat) : RoleInfo :=
  if spyListMem uid g.spy then
    .spyTeam ((spyIds g.spy).filter (fun s => s != uid))
  else if pyEqSpy uid g.spy then .spySolo
  else if g.doubleAgent.contains uid then
    .civilian (get_random_location r)
  else .civilian (g.location.getD "")

/-- Outcome of the mode dispatch of finish_vote once the eliminated
player is known.  Terminal outcomes carry the game state passed on to
end_game; revote carries the reduced game re-entering start_voting;
tyError marks the branches that raise TypeError at runtime. -/
inductive FVOutcome where
  | civWin (g : Game)
  | spyWin (g : Game)
  | revote (g : Game)
  | awaitGuess (g : Game)
  | tyError
  | aborted
deriving DecidableEq, Repr

/-- Body of the team branch of finish_vote, lines 1216-1244: remove a
caught spy from both the spy list and the roster; if no spy remains the
civilians win, otherwise voting is re-armed; an innocent elimination is
a spy win.  The membership test chosen in game(spy) raises TypeError
when the spy field is not a list. -/
def teamSpyResolve (g : Game) (chosen : Nat) : FVOutcome :=
  match g.spy with
  | .many ns =>
    if ns.contains chosen then
      let ns2 := ns.filter (fun s => s != chosen)
      let g2 := { g with spy := .many ns2,
                         players := g.players.filter (fun p => p.1 != chosen) }
      if ns2.isEmpty then .civWin g2 else .revote g2
    else .spyWin g
  | _ => .tyError

/-- Mode dispatch of finish_vote, lines 1212-1321.  The first test
compares the special field against the string team_spy, although the
value stored for the team mode is two_spies.  The double_agent and
chaos branch compares the eliminated id with the spy field by Python
equality and formats players.get(game(spy)), which raises TypeError
when the spy field is a list.  The default branch is the single-spy
logic; its innocent path also formats players.get(game(spy)) at line
1288, which raises the same TypeError for a list-valued spy before
line 1296 sets awaiting_guess, so only a non-list spy reaches the
guess phase. -/
def finishVoteResolve (g : Game) (chosen : Nat) : FVOutcome :=
  let sp := (modeConfigOf g).special
  if sp = some "team_spy" then teamSpyResolve g chosen
  else if sp = some "double_agent" ∨ sp = some "chaos" then
    if pyEqSpy chosen g.spy then .civWin g
    else
      match g.spy with
      | .many _ => .tyError
      | _ => .spyWin g
  else
    if pyEqSpy chosen g.spy then .civWin g
    else
      match g.spy with
      | .many _ => .tyError
      | _ => .awaitGuess { g with awaitingGuess := true }

/-- Per-player statistics record of create_player_stats.  The two
timestamp fields are not represented. -/
structure PlayerStats where
  games_played : Nat
  spy_wins : Nat
  civilian_wins : Nat
  spy_games : Nat
  civilian_games : Nat
  spies_caught : Nat
  achievements : List String
  name : String
deriving DecidableEq, Repr

/-- create_player_stats. -/
def create_player_stats (nm : String) : PlayerStats :=
  { games_played := 0, spy_wins := 0, civilian_wins := 0, spy_games := 0,
    civilian_games := 0, spies_caught := 0, achievements := [], name := nm }

/-- Win-rate threshold test of the achievement conditions.  Python
computes wins / games * 100 in floating point, 0 when games is 0; the
comparison is modelled by exact integer arithmetic. -/
def rateGe (wins games pct : Nat) : Bool :=
  if games == 0 then false else decide (pct * games ≤ wins * 100)

/-- The ACHIEVEMENTS table: name and unlock condition over cumulative
stats, in dict order. -/
def achievementConds (s : PlayerStats) : List (String × Bool) :=
  [("Rookie Agent", decide (1 ≤ s.games_played)),
   ("Spy Novice", decide (3 ≤ s.spy_wins)),
   ("Junior Detective", decide (5 ≤ s.spies_caught)),
   ("Master Spy", decide (10 ≤ s.spy_wins) && decide (20 ≤ s.spy_games)),
   ("Super Sleuth", decide (20 ≤ s.spies_caught)),
   ("Veteran Agent", decide (50 ≤ s.games_played)),
   ("Master Deceiver",
     decide (15 ≤ s.spy_wins) && rateGe s.spy_wins s.spy_games 70),
   ("Team Player", decide (20 ≤ s.civilian_wins)),
   ("Perfectionist",
     rateGe s.civilian_wins s.civilian_games 80 &&
       decide (15 ≤ s.civilian_games)),
   ("Legendary Agent",
     decide (100 ≤ s.games_played) && rateGe s.spy_wins s.spy_games 60 &&
       rateGe s.civilian_wins s.civilian_games 60)]

/-- check_achievements: append every achievement whose condition now
holds and whose name is not yet unlocked. -/
def check_achievements (s : PlayerStats) : PlayerStats :=
  let fresh := (achievementConds s).filter
    (fun ac => ac.2 && ! s.achievements.contains ac.1)
  { s with achievements := s.achievements ++ fresh.map Prod.fst }

/-- update_player_stats: create the record if missing, bump the game
counters for the played role, record a win when the result matches the
role, then run the achievement check. -/
def update_player_stats (nm : String) (result : String) (wasSpy : Bool)
    (s0 : Option PlayerStats) : PlayerStats :=
  let s := match s0 with
    | some s => s
    | none => create_player_stats nm
  let s := { s with games_played := s.games_played + 1, name := nm }
  let s := if wasSpy then
      { s with spy_games := s.spy_games + 1,
               spy_wins := s.spy_wins +
                 (if result == "spy_win" then 1 else 0) }
    else
      { s with civilian_games := s.civilian_games + 1,
               civilian_wins := s.civilian_wins +
                 (if result == "civilian_win" then 1 else 0) }
  check_achievements s

/-- Lookup in the player_stats dict. -/
def statsLookup (tbl : List (Nat × PlayerStats)) (uid : Nat) :
    Option PlayerStats :=
  match tbl.find? (fun e => e.1 == uid) with
  | some e => some e.2
  | none => none

/-- Assignment player_stats(uid) = v, replacing in place or appending. -/
def statsSet (tbl : List (Nat × PlayerStats)) (uid : Nat)
    (v : PlayerStats) : List (Nat × PlayerStats) :=
  if (keys tbl).contains uid then
    tbl.map (fun e => if e.1 == uid then (uid, v) else e)
  else tbl ++ [(uid, v)]

/-- The was_spy test of end_game: player_id == game.get(spy) or the
spy field is a list containing the player. -/
def wasSpyOf (uid : Nat) (spy : SpyVal) : Bool :=
  pyEqSpy uid spy || spyListMem uid spy

/-- The process state relevant to finalization: the session of one
room (None once removed from the store) and the player_stats table. -/
structure World where
  game : Option Game
  stats : List (Nat × PlayerStats)
deriving DecidableEq, Repr

/-- end_game, lines 1355-1370: if the session is gone this is a no-op;
otherwise every roster player gets a stats update for the result and
the session is removed from the store (remove_game). -/
def end_game (w : World) (result : String) : World :=
  match w.game with
  | none => w
  | some g =>
    { game := none,
      stats := g.players.foldl
        (fun tbl p =>
          statsSet tbl p.1
            (update_player_stats p.2 result (wasSpyOf p.1 g.spy)
              (statsLookup tbl p.1)))
        w.stats }

/-- Whether a vote hit a spy, used by the spies_caught update of
finish_vote. -/
def spiesCaughtHit (target : Nat) (spy : SpyVal) : Bool :=
  match spy with
  | .many ns => ns.contains target
  | .one n => target == n
  | .noneV => false

/-- Roster name of a player. -/
def playersName (g : Game) (uid : Nat) : String :=
  match g.players.find? (fun p => p.1 == uid) with
  | some p => p.2
  | none => ""

/-- The voter loop of finish_vote, lines 1200-1210: create missing
stats records and credit spies_caught to voters whose vote hit a spy. -/
def recordSpiesCaught (g : Game) (tbl : List (Nat × PlayerStats)) :
    List (Nat × PlayerStats) :=
  g.votes.foldl
    (fun tbl v =>
      let s := match statsLookup tbl v.1 with
        | some s => s
        | none => create_player_stats (playersName g v.1)
      let s := if spiesCaughtHit v.2 g.spy then
          { s with spies_caught := s.spies_caught + 1 }
        else s
      statsSet tbl v.1 s)
    tbl

/-- finish_vote, lines 1158-1321, on the process state.  With no
session it returns unchanged; with zero votes the game is removed with
no stats update and no elimination; otherwise the eliminated player is
chosen from the tally (draw r), voters are credited for caught spies,
and the mode dispatch decides between ending, re-voting and the guess
phase.  The second component reports the branch taken. -/
def finish_vote (w : World) (r : Nat) : World × Option FVOutcome :=
  match w.game with
  | none => (w, none)
  | some g =>
    if g.votes = [] then
      ({ game := none, stats := w.stats }, some .aborted)
    else
      let chosen := chooseEliminated g.votes r
      let stats1 := recordSpiesCaught g w.stats
      match finishVoteResolve g chosen with
      | .civWin g2 =>
        (end_game { game := some g2, stats := stats1 } "civilian_win",
          some (.civWin g2))
      | .spyWin g2 =>
        (end_game { game := some g2, stats := stats1 } "spy_win",
          some (.spyWin g2))
      | .revote g2 =>
        ({ game := some { g2 with votes := [] }, stats := stats1 },
          some (.revote g2))
      | .awaitGuess g2 =>
        ({ game := some g2, stats := stats1 }, some (.awaitGuess g2))
      | .tyError => ({ game := some g, stats := stats1 }, some .tyError)
      | .aborted => ({ game := none, stats := stats1 }, some .aborted)

/-- guess_timeout callback armed by the single-spy innocent branch:
re-fetches the session and only acts while awaiting_guess holds. -/
def guess_timeout (w : World) : World :=
  match w.game with
  | none => w
  | some g => if g.awaitingGuess then end_game w "civilian_win" else w

/-- The manual endgame command: with no session it only reports; with a
session and sufficient permission it removes the game without a stats
update. -/
def endgame_command (w : World) (authorized : Bool) : World :=
  match w.game with
  | none => w
  | some _ => if authorized then { game := none, stats := w.stats } else w

/-- handle_guess: only the surviving spy while awaiting_guess may
guess; a correct lowercased guess is a spy win, otherwise civilians
win; both paths finalize through end_game. -/
def handle_guess (w : World) (uid : Nat) (txt : String) : World :=
  match w.game with
  | none => w
  | some g =>
    if g.awaitingGuess && pyEqSpy uid g.spy then
      let w2 : World := { game := some { g with awaitingGuess := false },
                          stats := w.stats }
      if txt.toLower == (g.location.getD "").toLower then
        end_game w2 "spy_win"
      else end_game w2 "civilian_win"
    else w

/-- Concrete three-player normal game in a voting round that closed
with zero votes. -/
def c1Game : Game :=
  { players := [(1, "A"), (2, "B"), (3, "C")], state := .started,
    mode := some "normal", location := some "Bank", spy := .one 2,
    doubleAgent := [], votes := [], host := 1, awaitingGuess := false }

/-- World holding c1Game with an empty stats table. -/
def c1World : World := { game := some c1Game, stats := [] }

/-- Concrete team_spy game with six players, spies 1 and 2, where every
player voted for spy 1. -/
def c3TeamGame : Game :=
  { players := [(1, "A"), (2, "B"), (3, "C"), (4, "D"), (5, "E"), (6, "F")],
    state := .started, mode := some "team_spy", location := some "Bank",
    spy := .many [1, 2], doubleAgent := [],
    votes := [(1, 1), (2, 1), (3, 1), (4, 1), (5, 1), (6, 1)], host := 1,
    awaitingGuess := false }

/-- Concrete chaos game with eight players, spies 1 and 2, double
agent 3, where every player voted for spy 1. -/
def c3ChaosGame : Game :=
  { players := [(1, "A"), (2, "B"), (3, "C"), (4, "D"), (5, "E"), (6, "F"),
      (7, "G"), (8, "H")],
    state := .started, mode := some "chaos", location := some "Bank",
    spy := .many [1, 2], doubleAgent := [3],
    votes := [(1, 1), (2, 1), (3, 1), (4, 1), (5, 1), (6, 1), (7, 1), (8, 1)],
    host := 1, awaitingGuess := false }

/-- Concrete waiting game in double_agent mode with four players. -/
def c2Game : Game :=
  { players := [(1, "A"), (2, "B"), (3, "C"), (4, "D")], state := .waiting,
    mode := some "double_agent", location := none, spy := .noneV,
    doubleAgent := [], votes := [], host := 1, awaitingGuess := false }

/-- Concrete started double_agent game where player 2 is the double
agent and the canonical location is Bank. -/
def c10Game : Game :=
  { players := [(1, "A"), (2, "B"), (3, "C"), (4, "D")], state := .started,
    mode := some "double_agent", location := some "Bank", spy := .one 1,
    doubleAgent := [2], votes := [], host := 1, awaitingGuess := false }

/-- Concrete started game used to exhibit behaviour of the vote
handler on a target outside the roster. -/
def c4Game : Game :=
  { players := [(1, "A"), (2, "B"), (3, "C")], state := .started,
    mode := some "normal", location := some "Bank", spy := .one 2,
    doubleAgent := [], votes := [], host := 1, awaitingGuess := false }

/-- Concrete two-player started game with an empty votes dict, used to
instantiate the voting-round invariant. -/
def c5Game : Game :=
  { players := [(1, "A"), (2, "B")], state := .started,
    mode := some "normal", location := some "Beach", spy := .one 1,
    doubleAgent := [], votes := [], host := 1, awaitingGuess := false }

/-- Result of the join command. -/
inductive JoinRes where
  | ok
  | errStarted
  | errAlready
deriving DecidableEq, Repr

/-- The join handler on an existing session: refuses outside the
waiting phase and for players already joined, otherwise appends the
player to the roster. -/
def join_handler (g : Game) (uid : Nat) (nm : String) : JoinRes × Game :=
  if g.state ≠ .waiting then (.errStarted, g)
  else if (keys g.players).contains uid then (.errAlready, g)
  else (.ok, { g with players := g.players ++ [(uid, nm)] })

/-- Result of the leave command. -/
inductive LeaveRes where
  | ok
  | okClosed
  | errNotIn
  | errStarted
deriving DecidableEq, Repr

/-- The leave handler on an existing session: refuses non-members and
any phase other than waiting; otherwise removes the player, closes the
game when the roster becomes empty, and hands the host role to the
first remaining player when the host left. -/
def leave_handler (g : Game) (uid : Nat) : LeaveRes × Option Game :=
  if ¬ (keys g.players).contains uid then (.errNotIn, some g)
  else if g.state ≠ .waiting then (.errStarted, some g)
  else
    let ps := g.players.filter (fun p => p.1 != uid)
    if ps.isEmpty then (.okClosed, none)
    else if uid = g.host then
      (.ok, some { g with players := ps, host := (keys ps).getD 0 0 })
    else (.ok, some { g with players := ps })

/-- Result of the mode selection callback. -/
inductive ModeRes where
  | ok
  | errInvalidPhase
  | errInvalidMode
deriving DecidableEq, Repr

/-- mode_id in GAME_MODES. -/
def validModeId (m : String) : Bool :=
  m == "normal" || m == "speed" || m == "marathon" || m == "team_spy" ||
    m == "double_agent" || m == "chaos"

/-- The mode selection callback: refuses outside mode_select and for
unknown modes, otherwise stores the mode and moves to waiting. -/
def mode_callback (g : Game) (modeId : String) : ModeRes × Game :=
  if g.state ≠ .modeSelect then (.errInvalidPhase, g)
  else if ¬ validModeId modeId then (.errInvalidMode, g)
  else (.ok, { g with mode := some modeId, state := .waiting })

/-- Result of the begin command. -/
inductive BeginRes where
  | ok
  | errNoGame
  | errNotAuthorized
  | errInsufficient
deriving DecidableEq, Repr

/-- The begin handler: refuses outside the waiting phase, for callers
who are neither host nor admin (the permission decision enters as the
authorized flag), and below the minimum player count; otherwise it
runs role assignment and delivery. -/
def begin_handler (g : Game) (authorized : Bool)
    (sLoc sSpy sDecoy sFake : Nat) (fakeSeed : Nat → Nat) :
    BeginRes × Game × List (Nat × Delivery) :=
  if g.state ≠ .waiting then (.errNoGame, g, [])
  else if ¬ authorized then (.errNotAuthorized, g, [])
  else if g.players.length < (modeConfigOf g).minPlayers then
    (.errInsufficient, g, [])
  else
    let a := beginAssign g sLoc sSpy sDecoy sFake fakeSeed
    (.ok, a.1, a.2)

/-- Purpose tag of a scheduler timer: the discussion timeout armed by
begin, the voting timeout and progress reminder armed by start_voting,
and the guess timeout armed by the single-spy innocent branch. -/
inductive TKind where
  | discussion
  | voting
  | progress
  | guess
deriving DecidableEq, Repr

/-- Scheduler state of one room: the session, the live timers (armed,
not yet cancelled and not yet fired) with fresh numeric handles, the
fresh-handle counter, and a ghost counter of started voting rounds. -/
structure TSys where
  sess : Option Game
  timers : List (Nat × TKind)
  nextId : Nat
  rounds : Nat
deriving DecidableEq, Repr

/-- Timer(duration, cb).start() plus game_state.add_timer: arm a fresh
handle for the purpose. -/
def armT (k : TKind) (s : TSys) : TSys :=
  { s with timers := s.timers ++ [(s.nextId, k)], nextId := s.nextId + 1 }

/-- cancel_timers: every live timer of the room is cancelled; a
cancelled threading.Timer never fires. -/
def clearT (s : TSys) : TSys := { s with timers := [] }

/-- remove_game: drop the session and cancel all its timers. -/
def removeGameT (s : TSys) : TSys := { s with sess := none, timers := [] }

/-- start_voting on the scheduler state: re-fetches the session and
only acts while the state is started; clears the votes, arms the
voting and progress timers and counts a voting round. -/
def startVotingT (s : TSys) : TSys :=
  match s.sess with
  | none => s
  | some g =>
    if g.state = .started then
      armT .progress (armT .voting
        { s with sess := some { g with votes := [] },
                 rounds := s.rounds + 1 })
    else s

/-- finish_vote on the scheduler state: cancel the room timers, then
abort on zero votes, end the game, re-arm voting or arm the guess
timer according to the tally and the mode dispatch.  The stats side is
the World model; this system tracks session and timers. -/
def finishVoteT (s : TSys) (r : Nat) : TSys :=
  match s.sess with
  | none => s
  | some g =>
    let s1 := clearT s
    if g.votes = [] then removeGameT s1
    else
      match finishVoteResolve g (chooseEliminated g.votes r) with
      | .civWin _ => removeGameT s1
      | .spyWin _ => removeGameT s1
      | .revote g2 => startVotingT { s1 with sess := some g2 }
      | .awaitGuess g2 => armT .guess { s1 with sess := some g2 }
      | .tyError => s1
      | .aborted => removeGameT s1

/-- The manual vote command: on a started session it cancels the
pending timers and starts voting. -/
def voteCmdT (s : TSys) : TSys :=
  match s.sess with
  | none => s
  | some g => if g.state = .started then startVotingT (clearT s) else s

/-- Firing of the timer with handle i, with tally draw r: a cancelled
or already fired handle is not live and the firing is a silent no-op;
a live handle is consumed and its callback runs, re-fetching the
session and checking the guard of the phase that armed it. -/
def fireTimerT (s : TSys) (i r : Nat) : TSys :=
  match s.timers.find? (fun e => e.1 == i) with
  | none => s
  | some e =>
    let s1 : TSys :=
      { s with timers := s.timers.filter (fun e2 => e2.1 != i) }
    match e.2 with
    | .discussion =>
      match s1.sess with
      | some g => if g.state = .started then startVotingT s1 else s1
      | none => s1
    | .voting =>
      match s1.sess with
      | some g => if g.state = .started then finishVoteT s1 r else s1
      | none => s1
    | .progress => s1
    | .guess =>
      match s1.sess with
      | some g => if g.awaitingGuess then removeGameT s1 else s1
      | none => s1

/-- The vote button callback on the scheduler state: record the vote
and close the round when every player has voted. -/
def castVoteT (s : TSys) (v t r : Nat) : TSys :=
  match s.sess with
  | none => s
  | some g =>
    let res := vote_callback g v t
    let s1 : TSys := { s with sess := some res.2 }
    if res.1 && votingComplete res.2 then finishVoteT s1 r else s1

/-- The manual endgame command on the scheduler state. -/
def endCmdT (s : TSys) (auth : Bool) : TSys :=
  match s.sess with
  | none => s
  | some _ => if auth then removeGameT s else s

/-- handle_guess on the scheduler state: only the surviving spy during
the guess window ends the game; both outcomes remove the session. -/
def handleGuessT (s : TSys) (uid : Nat) : TSys :=
  match s.sess with
  | none => s
  | some g =>
    if g.awaitingGuess && pyEqSpy uid g.spy then
      removeGameT { s with sess := some { g with awaitingGuess := false } }
    else s

/-- Events that can reach a room after its game began: the manual vote
command, vote button presses, timer firings, the endgame command and
guess messages. -/
inductive Ev where
  | voteCmd
  | castV (v t r : Nat)
  | fire (i r : Nat)
  | endCmd (auth : Bool)
  | guessEv (uid : Nat)
deriving DecidableEq, Repr

/-- One event step. -/
def stepT (s : TSys) : Ev → TSys
  | .voteCmd => voteCmdT s
  | .castV v t r => castVoteT s v t r
  | .fire i r => fireTimerT s i r
  | .endCmd a => endCmdT s a
  | .guessEv u => handleGuessT s u

/-- Run a sequence of events. -/
def runT (s : TSys) (evs : List Ev) : TSys := evs.foldl stepT s

/-- The handle d is dead in s: no live timer carries it, and it can
never come back because handles are handed out fresh from a counter
that has moved past d. -/
def deadTimer (d : Nat) (s : TSys) : Prop :=
  (∀ e ∈ s.timers, e.1 < s.nextId) ∧ d < s.nextId ∧
    ∀ e ∈ s.timers, e.1 ≠ d

/-- Concrete started three-player game for the stale timer theorem. -/
def c8Game : Game :=
  { players := [(1, "A"), (2, "B"), (3, "C")], state := .started,
    mode := some "normal", location := some "Bank", spy := .one 2,
    doubleAgent := [], votes := [], host := 1, awaitingGuess := false }

/-- Concrete started scheduler state used to instantiate the stale
timer theorem. -/
def c8Sys : TSys :=
  { sess := some c8Game, timers := [], nextId := 0, rounds := 0 }

/-- Concrete started one-player game used to exercise the wrong-phase
rejections. -/
def c9Game : Game :=
  { players := [(1, "A")], state := .started, mode := some "normal",
    location := some "Bank", spy := .one 1, doubleAgent := [], votes := [],
    host := 1, awaitingGuess := false }

theorem keys_append {α : Type} (l r : List (Nat × α)) :
    keys (l ++ r) = keys l ++ keys r := by
  simp [keys]

theorem contains_iff_mem (l : List Nat) (a : Nat) :
    l.contains a = true ↔ a ∈ l := by
  simp [List.contains]

/-- C4 (amended): GameLogic.cast_vote accepts exactly when the status
is voting, voter and target are in the roster and the voter has not
voted; the spy_bot vote_callback accepts exactly when the state is
started, the voter is in the roster and has not voted, with no check
that the target is in the roster.  In both variants a rejected call
returns the game unchanged and an accepted call only appends the vote. -/
theorem c4_record_vote_preconditions :
    (∀ (gl : GLGame) (v t : Nat),
      ((cast_vote gl v t).1 = true ↔
        (gl.status = "voting" ∧ v ∈ gl.players ∧ t ∈ gl.players ∧
          v ∉ keys gl.votes)) ∧
      (cast_vote gl v t).2 =
        (if (cast_vote gl v t).1 then
          { gl with votes := gl.votes ++ [(v, t)] } else gl)) ∧
    (∀ (g : Game) (v t : Nat),
      ((vote_callback g v t).1 = true ↔
        (g.state = .started ∧ v ∈ keys g.players ∧ v ∉ keys g.votes)) ∧
      (vote_callback g v t).2 =
        (if (vote_callback g v t).1 then
          { g with votes := g.votes ++ [(v, t)] } else g)) := by
  constructor
  · intro gl v t
    constructor
    · unfold cast_vote
      split_ifs with h1 h2 h3 h4 <;>
        simp_all [contains_iff_mem]
    · unfold cast_vote
      split_ifs <;> simp_all
  · intro g v t
    constructor
    · unfold vote_callback
      split_ifs with h1 h2 h3 <;>
        simp_all [contains_iff_mem]
    · unfold vote_callback
      split_ifs <;> simp_all

/-- C4 counterexample: in the started game c4Game with roster 1, 2, 3,
vote_callback accepts a vote by player 1 for target 99 even though 99
is not in the roster, refuting the claim that a vote is accepted only
if the target is in the roster. -/
theorem c4_counterexample :
    (vote_callback c4Game 1 99).1 = true ∧
    ¬ (99 ∈ keys c4Game.players) ∧
    (vote_callback c4Game 1 99).2.votes = [(1, 99)] := by
  decide

theorem nodup_subset_length_iff (a b : List Nat) (ha : a.Nodup)
    (hb : b.Nodup) (hsub : ∀ x ∈ a, x ∈ b) :
    a.length = b.length ↔ ∀ x ∈ b, x ∈ a := by
  have hfs : a.toFinset ⊆ b.toFinset := by
    intro x hx
    simp only [List.mem_toFinset] at hx ⊢
    exact hsub x hx
  constructor
  · intro hlen x hx
    have hcard : b.toFinset.card ≤ a.toFinset.card := by
      rw [List.toFinset_card_of_nodup ha, List.toFinset_card_of_nodup hb,
        hlen]
    have heq : a.toFinset = b.toFinset :=
      Finset.eq_of_subset_of_card_le hfs hcard
    have : x ∈ a.toFinset := by
      rw [heq]
      exact List.mem_toFinset.mpr hx
    exact List.mem_toFinset.mp this
  · intro hall
    have hfs2 : b.toFinset ⊆ a.toFinset := by
      intro x hx
      simp only [List.mem_toFinset] at hx ⊢
      exact hall x hx
    have heq : a.toFinset = b.toFinset := Finset.Subset.antisymm hfs hfs2
    rw [← List.toFinset_card_of_nodup ha, ← List.toFinset_card_of_nodup hb,
      heq]

theorem vote_callback_step (g : Game) (v t : Nat)
    (h1 : (keys g.votes).Nodup)
    (h2 : ∀ x ∈ keys g.votes, x ∈ keys g.players) :
    (vote_callback g v t).2.players = g.players ∧
    (keys (vote_callback g v t).2.votes).Nodup ∧
    (∀ x ∈ keys (vote_callback g v t).2.votes, x ∈ keys g.players) := by
  unfold vote_callback
  split_ifs with ha hb hc
  · exact ⟨rfl, h1, h2⟩
  · exact ⟨rfl, h1, h2⟩
  · refine ⟨rfl, ?_, ?_⟩
    · simp only [keys, List.map_append, List.map_cons, List.map_nil]
      rw [List.nodup_append]
      refine ⟨h1, List.nodup_singleton v, ?_⟩
      intro x hx hxv
      rw [List.mem_singleton] at hxv
      subst hxv
      exact hc ((contains_iff_mem _ _).mpr hx)
    · intro x hx
      simp only [keys, List.map_append, List.map_cons, List.map_nil,
        List.mem_append, List.mem_singleton] at hx
      rcases hx with hx | hx
      · exact h2 x hx
      · subst hx
        exact (contains_iff_mem _ _).mp hb
  · exact ⟨rfl, h1, h2⟩

theorem applyVotes_invariant (calls : List (Nat × Nat)) :
    ∀ (g : Game), (keys g.votes).Nodup →
      (∀ v ∈ keys g.votes, v ∈ keys g.players) →
      (applyVotes g calls).players = g.players ∧
      (keys (applyVotes g calls).votes).Nodup ∧
      (∀ v ∈ keys (applyVotes g calls).votes, v ∈ keys g.players) := by
  induction calls with
  | nil => intro g h1 h2; exact ⟨rfl, h1, h2⟩
  | cons c rest ih =>
    intro g h1 h2
    have hstep := vote_callback_step g c.1 c.2 h1 h2
    have hrec := ih (vote_callback g c.1 c.2).2 hstep.2.1
      (fun v hv => hstep.1 ▸ hstep.2.2 v hv)
    refine ⟨?_, ?_, ?_⟩
    · rw [show applyVotes g (c :: rest) =
        applyVotes (vote_callback g c.1 c.2).2 rest from rfl,
        hrec.1, hstep.1]
    · exact hrec.2.1
    · intro v hv
      have := hrec.2.2 v hv
      rw [hstep.1] at this
      exact this

/-- C5: starting from a cleared votes dict, any sequence of vote
callbacks keeps the roster unchanged, keeps at most one vote entry per
voter, keeps the voter key set inside the roster so the votes dict
never outgrows the roster, and the early-close condition
len(votes) == len(players) holds exactly when every roster member has
voted. -/
theorem c5_vote_invariant (g0 : Game) (calls : List (Nat × Nat))
    (hempty : g0.votes = []) (hnp : (keys g0.players).Nodup) :
    (applyVotes g0 calls).players = g0.players ∧
    (keys (applyVotes g0 calls).votes).Nodup ∧
    (∀ v ∈ keys (applyVotes g0 calls).votes, v ∈ keys g0.players) ∧
    (applyVotes g0 calls).votes.length ≤ g0.players.length ∧
    (votingComplete (applyVotes g0 calls) = true ↔
      ∀ p ∈ keys g0.players, p ∈ keys (applyVotes g0 calls).votes) := by
  have h0 : (keys g0.votes).Nodup := by
    rw [hempty]; exact List.nodup_nil
  have h0s : ∀ v ∈ keys g0.votes, v ∈ keys g0.players := by
    rw [hempty]; intro v hv; cases hv
  obtain ⟨hp, hn, hs⟩ := applyVotes_invariant calls g0 h0 h0s
  have hklen : (keys (applyVotes g0 calls).votes).length =
      (applyVotes g0 calls).votes.length := by
    simp [keys]
  have hplen : (keys g0.players).length = g0.players.length := by
    simp [keys]
  have hiff := nodup_subset_length_iff
    (keys (applyVotes g0 calls).votes) (keys g0.players) hn hnp hs
  refine ⟨hp, hn, hs, ?_, ?_⟩
  · have hcard : (keys (applyVotes g0 calls).votes).length ≤
        (keys g0.players).length := by
      rw [← List.toFinset_card_of_nodup hn,
        ← List.toFinset_card_of_nodup hnp]
      apply Finset.card_le_card
      intro x hx
      simp only [List.mem_toFinset] at hx ⊢
      exact hs x hx
    rw [← hklen, ← hplen]
    exact hcard
  · rw [votingComplete, beq_iff_eq, hp, ← hklen, ← hplen]
    exact hiff

/-- C5 witness: the two-player game c5Game satisfies the hypotheses, and
after both players vote the completion condition matches full roster
turnout. -/
theorem c5_vote_invariant_witness :
    c5Game.votes = [] ∧ (keys c5Game.players).Nodup ∧
    (votingComplete (applyVotes c5Game [(1, 2), (2, 1)]) = true ↔
      ∀ p ∈ keys c5Game.players,
        p ∈ keys (applyVotes c5Game [(1, 2), (2, 1)]).votes) :=
  ⟨rfl, by decide,
    (c5_vote_invariant c5Game [(1, 2), (2, 1)] rfl (by decide)).2.2.2.2⟩

theorem foldl_max_init (l : List Nat) : ∀ a : Nat, a ≤ l.foldl max a := by
  induction l with
  | nil => intro a; exact le_refl a
  | cons y ys ih =>
    intro a
    calc a ≤ max a y := le_max_left a y
      _ ≤ ys.foldl max (max a y) := ih (max a y)

theorem foldl_max_le (l : List Nat) :
    ∀ (a x : Nat), x ∈ l → x ≤ l.foldl max a := by
  induction l with
  | nil => intro a x hx; cases hx
  | cons y ys ih =>
    intro a x hx
    rcases List.mem_cons.mp hx with h | h
    · subst h
      calc x ≤ max a x := le_max_right a x
        _ ≤ ys.foldl max (max a x) := foldl_max_init ys (max a x)
    · exact ih (max a y) x h

theorem foldl_max_mem (l : List Nat) :
    ∀ a : Nat, l.foldl max a = a ∨ l.foldl max a ∈ l := by
  induction l with
  | nil => intro a; exact Or.inl rfl
  | cons y ys ih =>
    intro a
    rw [List.foldl_cons]
    rcases ih (max a y) with h | h
    · rw [h]
      rcases max_choice a y with hm | hm
      · rw [hm]
        exact Or.inl rfl
      · rw [hm]
        exact Or.inr (List.mem_cons_self y ys)
    · exact Or.inr (List.mem_cons_of_mem y h)

theorem firstSeen_aux (vs : List Nat) :
    ∀ (acc : List Nat) (x : Nat),
      (x ∈ vs.foldl
        (fun acc v => if acc.contains v then acc else acc ++ [v]) acc) ↔
      (x ∈ acc ∨ x ∈ vs) := by
  induction vs with
  | nil => intro acc x; simp
  | cons v vs ih =>
    intro acc x
    rw [List.foldl_cons]
    by_cases hc : acc.contains v = true
    · rw [if_pos hc, ih]
      constructor
      · rintro (h | h)
        · exact Or.inl h
        · exact Or.inr (List.mem_cons_of_mem v h)
      · rintro (h | h)
        · exact Or.inl h
        · rcases List.mem_cons.mp h with rfl | h
          · exact Or.inl ((contains_iff_mem _ _).mp hc)
          · exact Or.inr h
    · rw [if_neg hc, ih]
      simp only [List.mem_append, List.mem_singleton, List.mem_cons]
      tauto

theorem mem_firstSeenTargets (vs : List Nat) (x : Nat) :
    x ∈ firstSeenTargets vs ↔ x ∈ vs := by
  unfold firstSeenTargets
  rw [firstSeen_aux]
  simp

theorem topVoted_count (vs : List Nat) (t : Nat)
    (ht : t ∈ topVoted vs) : countVotes vs t = maxVotes vs := by
  unfold topVoted at ht
  have := List.of_mem_filter ht
  exact beq_iff_eq.mp this

theorem topVoted_ne_nil (vs : List Nat) (hne : vs ≠ []) :
    topVoted vs ≠ [] := by
  obtain ⟨t0, ts, rfl⟩ := List.exists_cons_of_ne_nil hne
  have ht0 : t0 ∈ firstSeenTargets (t0 :: ts) := by
    rw [mem_firstSeenTargets]
    exact List.mem_cons_self t0 ts
  have hcl : countVotes (t0 :: ts) t0 ∈
      (firstSeenTargets (t0 :: ts)).map (countVotes (t0 :: ts)) :=
    List.mem_map_of_mem _ ht0
  rcases foldl_max_mem
      ((firstSeenTargets (t0 :: ts)).map (countVotes (t0 :: ts))) 0 with
    h | h
  · exfalso
    have hle : countVotes (t0 :: ts) t0 ≤
        ((firstSeenTargets (t0 :: ts)).map
          (countVotes (t0 :: ts))).foldl max 0 :=
      foldl_max_le _ 0 _ hcl
    rw [h] at hle
    have hpos : 0 < countVotes (t0 :: ts) t0 := by
      unfold countVotes
      simp [List.count_cons]
    omega
  · rw [List.mem_map] at h
    obtain ⟨t, htmem, hteq⟩ := h
    have : t ∈ topVoted (t0 :: ts) := by
      unfold topVoted
      apply List.mem_filter_of_mem htmem
      rw [beq_iff_eq]
      exact hteq
    intro hcon
    rw [hcon] at this
    cases this

theorem natGetD_mem (l : List Nat) :
    ∀ i : Nat, i < l.length → l.getD i 0 ∈ l := by
  induction l with
  | nil => intro i hi; cases hi
  | cons y ys ih =>
    intro i hi
    cases i with
    | zero => exact List.mem_cons_self y ys
    | succ j =>
      have : j < ys.length := by
        simpa using hi
      exact List.mem_cons_of_mem y (ih j this)

theorem natGetD_indexOf (l : List Nat) (t : Nat) (ht : t ∈ l) :
    l.getD (l.indexOf t) 0 = t := by
  induction l with
  | nil => cases ht
  | cons y ys ih =>
    by_cases h : y = t
    · subst h
      simp [List.indexOf_cons_self]
    · have ht2 : t ∈ ys := by
        rcases List.mem_cons.mp ht with h2 | h2
        · exact absurd h2.symm h
        · exact h2
      have hbeq : (y == t) = false := by
        simp [h]
      rw [List.indexOf_cons, hbeq]
      simpa using ih ht2

theorem find_eq_head_filter (p : Nat → Bool) (l : List Nat) :
    l.find? p = (l.filter p).head? := by
  induction l with
  | nil => rfl
  | cons y ys ih =>
    cases hp : p y
    · have hp2 : ¬ p y = true := by
        rw [hp]
        exact Bool.false_ne_true
      rw [List.find?_cons_of_neg _ hp2, List.filter_cons_of_neg hp2]
      exact ih
    · rw [List.find?_cons_of_pos _ hp, List.filter_cons_of_pos hp]
      rfl

/-- C6 (amended): when a spy_bot voting round closes with at least one
vote, the eliminated player always holds the maximal vote count, a
strict maximum is always eliminated, and on a tie every tied target is
selected by some random draw.  The game_logic variant instead
eliminates the first target in first-encounter order among the tied
maximal targets, deterministically. -/
theorem c6_elimination_policy (votes : List (Nat × Nat)) (r : Nat)
    (hne : votes ≠ []) :
    chooseEliminated votes r ∈ topVoted (voteValues votes) ∧
    countVotes (voteValues votes) (chooseEliminated votes r) =
      maxVotes (voteValues votes) ∧
    (∀ t, topVoted (voteValues votes) = [t] → chooseEliminated votes r = t) ∧
    (∀ t ∈ topVoted (voteValues votes), ∃ r2, chooseEliminated votes r2 = t) ∧
    mostCommon1 (voteValues votes) = (topVoted (voteValues votes)).head? := by
  have hvs : voteValues votes ≠ [] := by
    intro h
    apply hne
    unfold voteValues at h
    exact List.map_eq_nil_iff.mp h
  have htv : topVoted (voteValues votes) ≠ [] := topVoted_ne_nil _ hvs
  have hlen : 0 < (topVoted (voteValues votes)).length :=
    List.length_pos.mpr htv
  have hmem : chooseEliminated votes r ∈ topVoted (voteValues votes) := by
    unfold chooseEliminated
    by_cases h1 : (topVoted (voteValues votes)).length > 1
    · rw [if_pos h1]
      exact natGetD_mem _ _ (Nat.mod_lt r hlen)
    · rw [if_neg h1]
      exact natGetD_mem _ 0 hlen
  refine ⟨hmem, topVoted_count _ _ hmem, ?_, ?_, ?_⟩
  · intro t ht
    unfold chooseEliminated
    rw [ht]
    simp
  · intro t ht
    by_cases h1 : (topVoted (voteValues votes)).length > 1
    · refine ⟨(topVoted (voteValues votes)).indexOf t, ?_⟩
      unfold chooseEliminated
      rw [if_pos h1]
      have hidx : (topVoted (voteValues votes)).indexOf t <
          (topVoted (voteValues votes)).length :=
        List.indexOf_lt_length.mpr ht
      rw [Nat.mod_eq_of_lt hidx]
      exact natGetD_indexOf _ t ht
    · refine ⟨0, ?_⟩
      unfold chooseEliminated
      rw [if_neg h1]
      have : (topVoted (voteValues votes)).length = 1 := by
        omega
      obtain ⟨a, ha⟩ := List.length_eq_one.mp this
      rw [ha] at ht
      rw [List.mem_singleton] at ht
      rw [ha, ht]
      rfl
  · unfold mostCommon1 topVoted
    exact find_eq_head_filter _ _

/-- C6 witness: applying the policy theorem to the concrete tied votes
c6Votes with draw 0 shows the eliminated player is one of the tied
targets. -/
theorem c6_elimination_policy_witness :
    c6Votes ≠ [] ∧
    chooseEliminated c6Votes 0 ∈ topVoted (voteValues c6Votes) :=
  ⟨by decide, (c6_elimination_policy c6Votes 0 (by decide)).1⟩

/-- C6 counterexample: on the tied votes c6Votes the game_logic variant
always eliminates target 20, the first-seen one, although target 30
holds the same maximal count; the tie-break of calculate_results is
deterministic first-seen rather than uniform over the tied set. -/
theorem c6_counterexample :
    mostCommon1 (voteValues c6Votes) = some 20 ∧
    30 ∈ topVoted (voteValues c6Votes) ∧
    countVotes (voteValues c6Votes) 30 = countVotes (voteValues c6Votes) 20 ∧
    (calculate_results c6Votes 5).2 = some 20 := by
  decide

theorem sampleList_subset :
    ∀ (k : Nat) (l : List Nat) (seed x : Nat),
      x ∈ sampleList l k seed → x ∈ l := by
  intro k
  induction k with
  | zero =>
    intro l seed x hx
    cases l <;> simp [sampleList] at hx
  | succ k ih =>
    intro l seed x hx
    cases l with
    | nil => simp [sampleList] at hx
    | cons a rest =>
      simp only [sampleList] at hx
      rcases List.mem_cons.mp hx with h | h
      · subst h
        exact natGetD_mem _ _ (Nat.mod_lt seed (by simp))
      · exact List.eraseIdx_subset _ _ (ih _ _ x h)

theorem filter_ne_pos (ids : List Nat) (spy : Nat) (hnd : ids.Nodup)
    (hlen : 2 <= ids.length) :
    0 < (ids.filter (fun p => p != spy)).length := by
  match ids, hlen with
  | a :: b :: t, _ =>
    have hab : a ≠ b := by
      have := List.nodup_cons.mp hnd
      intro h
      exact this.1 (h ▸ List.mem_cons_self b t)
    rw [List.length_pos]
    intro hfil
    by_cases hs : spy = a
    · have hb : b ∈ List.filter (fun p => p != spy) (a :: b :: t) := by
        apply List.mem_filter_of_mem
          (List.mem_cons_of_mem a (List.mem_cons_self b t))
        subst hs
        rw [bne_iff_ne]
        exact fun h => hab h.symm
      rw [hfil] at hb
      cases hb
    · have ha : a ∈ List.filter (fun p => p != spy) (a :: b :: t) := by
        apply List.mem_filter_of_mem (List.mem_cons_self a (b :: t))
        rw [bne_iff_ne]
        exact fun h => hs h.symm
      rw [hfil] at ha
      cases ha

theorem daRemaining_pos (g : Game) (sSpy : Nat)
    (hnd : (keys g.players).Nodup) (hlen : 2 <= (keys g.players).length) :
    0 < (daRemaining g sSpy).length := by
  unfold daRemaining
  exact filter_ne_pos _ _ hnd hlen

theorem daPick_mem_remaining (g : Game) (sSpy sDecoy : Nat)
    (hnd : (keys g.players).Nodup) (hlen : 2 <= (keys g.players).length) :
    daPick g sSpy sDecoy ∈ daRemaining g sSpy := by
  unfold daPick
  exact natGetD_mem _ _ (Nat.mod_lt _ (daRemaining_pos g sSpy hnd hlen))

theorem daPick_ne_spy (g : Game) (sSpy sDecoy : Nat)
    (hnd : (keys g.players).Nodup) (hlen : 2 <= (keys g.players).length) :
    daPick g sSpy sDecoy ≠ daSpy g sSpy := by
  have hpick := daPick_mem_remaining g sSpy sDecoy hnd hlen
  unfold daRemaining at hpick
  have := (List.mem_filter.mp hpick).2
  rw [bne_iff_ne] at this
  exact this

/-- C2 (amended): the decoy set is disjoint from the impostor set for
every deceptive assignment; and the fake location handed to a double
agent is the plain full-pool draw get_random_location sFake, with no
exclusion of the canonical secret. -/
theorem c2_decoy_disjoint_full_pool :
    (∀ (g : Game) (sLoc sSpy sDecoy sFake : Nat),
      (keys g.players).Nodup → 2 <= (keys g.players).length →
      ∀ d ∈ (beginDoubleAgent g sLoc sSpy sDecoy sFake).1.doubleAgent,
        d ∉ spyIds (beginDoubleAgent g sLoc sSpy sDecoy sFake).1.spy) ∧
    (∀ (g : Game) (sLoc sSpy sDecoy : Nat) (fakeSeed : Nat → Nat),
      ∀ d ∈ (beginChaos g sLoc sSpy sDecoy fakeSeed).1.doubleAgent,
        d ∉ spyIds (beginChaos g sLoc sSpy sDecoy fakeSeed).1.spy) ∧
    (∀ (g : Game) (sLoc sSpy sDecoy sFake : Nat),
      (keys g.players).Nodup → 2 <= (keys g.players).length →
      (beginDoubleAgent g sLoc sSpy sDecoy sFake).1.doubleAgent =
        [daPick g sSpy sDecoy] ∧
      (daPick g sSpy sDecoy,
        Delivery.civLoc (get_random_location sFake)) ∈
          (beginDoubleAgent g sLoc sSpy sDecoy sFake).2) := by
  refine ⟨?_, ?_, ?_⟩
  · intro g sLoc sSpy sDecoy sFake hnd hlen d hd
    have hlist : (beginDoubleAgent g sLoc sSpy sDecoy sFake).1.doubleAgent =
        [daPick g sSpy sDecoy] := rfl
    rw [hlist, List.mem_singleton] at hd
    subst hd
    intro hmem
    have hsp : spyIds (beginDoubleAgent g sLoc sSpy sDecoy sFake).1.spy =
        [daSpy g sSpy] := rfl
    rw [hsp, List.mem_singleton] at hmem
    exact daPick_ne_spy g sSpy sDecoy hnd hlen hmem
  · intro g sLoc sSpy sDecoy fakeSeed d hd
    have hd1 : d ∈ chaosDas g sSpy sDecoy := hd
    have hd2 : d ∈ chaosRemaining g sSpy := sampleList_subset _ _ _ _ hd1
    unfold chaosRemaining at hd2
    have hd3 := (List.mem_filter.mp hd2).2
    have hd4 : (chaosSpies g sSpy).contains d = false := by
      cases hcd : (chaosSpies g sSpy).contains d
      · rfl
      · rw [hcd] at hd3
        cases hd3
    intro hmem
    have hsp : spyIds (beginChaos g sLoc sSpy sDecoy fakeSeed).1.spy =
        chaosSpies g sSpy := rfl
    rw [hsp, ← contains_iff_mem, hd4] at hmem
    cases hmem
  · intro g sLoc sSpy sDecoy sFake hnd hlen
    refine ⟨rfl, ?_⟩
    have hpickmem : daPick g sSpy sDecoy ∈ keys g.players := by
      have hpick := daPick_mem_remaining g sSpy sDecoy hnd hlen
      unfold daRemaining at hpick
      exact List.mem_of_mem_filter hpick
    have hnepick := daPick_ne_spy g sSpy sDecoy hnd hlen
    show (daPick g sSpy sDecoy,
        Delivery.civLoc (get_random_location sFake)) ∈
      (keys g.players).map (fun uid =>
        if uid = daSpy g sSpy then (uid, Delivery.spyMsg)
        else if uid = daPick g sSpy sDecoy then
          (uid, Delivery.civLoc (get_random_location sFake))
        else (uid, Delivery.civLoc (get_random_location sLoc)))
    rw [List.mem_map]
    refine ⟨daPick g sSpy sDecoy, hpickmem, ?_⟩
    rw [if_neg hnepick, if_pos rfl]

/-- C2 witness: in the concrete double_agent game c2Game the assignment
with all seeds zero yields a decoy set disjoint from the impostor set. -/
theorem c2_decoy_disjoint_full_pool_witness :
    (keys c2Game.players).Nodup ∧ 2 ≤ (keys c2Game.players).length ∧
    (∀ d ∈ (beginDoubleAgent c2Game 0 0 0 0).1.doubleAgent,
      d ∉ spyIds (beginDoubleAgent c2Game 0 0 0 0).1.spy) :=
  ⟨by decide, by decide,
    c2_decoy_disjoint_full_pool.1 c2Game 0 0 0 0 (by decide) (by decide)⟩

/-- C2 counterexample: with seeds zero, the canonical location of
c2Game is Bank and the double agent, player 2, is privately delivered
exactly the location Bank: the fake draw does not exclude the
canonical secret, so a decoy can receive the canonical secret. -/
theorem c2_counterexample :
    (beginDoubleAgent c2Game 0 0 0 0).1.location = some "Bank" ∧
    (beginDoubleAgent c2Game 0 0 0 0).1.doubleAgent = [2] ∧
    (2, Delivery.civLoc "Bank") ∈ (beginDoubleAgent c2Game 0 0 0 0).2 := by
  decide

/-- C10: for a double agent the location command answers with a fresh
full-pool draw on every call, different draws can disagree, and for
every fixed string some draw differs from it, so the role answer is
not determined by the game state. -/
theorem c10_decoy_query_nondeterministic (g : Game) (uid : Nat)
    (h1 : spyListMem uid g.spy = false)
    (h2 : pyEqSpy uid g.spy = false)
    (h3 : g.doubleAgent.contains uid = true) :
    (∀ r, location_command g uid r =
      .civilian (get_random_location r)) ∧
    (∃ r1 r2, location_command g uid r1 ≠ location_command g uid r2) ∧
    (∀ s : String, ∃ r, location_command g uid r ≠ .civilian s) := by
  have hbranch : ∀ r, location_command g uid r =
      .civilian (get_random_location r) := by
    intro r
    unfold location_command
    rw [if_neg (by rw [h1]; exact Bool.false_ne_true),
      if_neg (by rw [h2]; exact Bool.false_ne_true), if_pos h3]
  refine ⟨hbranch, ⟨0, 1, ?_⟩, ?_⟩
  · rw [hbranch 0, hbranch 1]
    decide
  · intro s
    by_cases hs : s = "Bank"
    · refine ⟨1, ?_⟩
      rw [hbranch 1, hs]
      decide
    · refine ⟨0, ?_⟩
      rw [hbranch 0]
      intro heq
      apply hs
      have h4 : get_random_location 0 = s := by
        injection heq
      rw [show get_random_location 0 = "Bank" from rfl] at h4
      exact h4.symm

/-- C10 witness: player 2 of c10Game is a double agent and receives the
fresh draw for seed 0 from the location command. -/
theorem c10_decoy_query_nondeterministic_witness :
    spyListMem 2 c10Game.spy = false ∧ pyEqSpy 2 c10Game.spy = false ∧
    c10Game.doubleAgent.contains 2 = true ∧
    location_command c10Game 2 0 = .civilian (get_random_location 0) :=
  ⟨by decide, by decide, by decide,
    (c10_decoy_query_nondeterministic c10Game 2 (by decide) (by decide)
      (by decide)).1 0⟩

/-- C7: end_game always leaves the store without the session, and once
the session is gone every later close attempt for the room, a second
end_game, a vote close, a guess timeout, the manual endgame command or
a guess submission, finds no session and changes neither the store nor
the stats table, so per-game statistics are finalized at most once per
session lifetime. -/
theorem c7_finalize_at_most_once (w : World) (result result2 : String)
    (r : Nat) (auth : Bool) (uid : Nat) (txt : String) :
    (end_game w result).game = none ∧
    end_game (end_game w result) result2 = end_game w result ∧
    finish_vote (end_game w result) r = (end_game w result, none) ∧
    guess_timeout (end_game w result) = end_game w result ∧
    endgame_command (end_game w result) auth = end_game w result ∧
    handle_guess (end_game w result) uid txt = end_game w result := by
  have hg : (end_game w result).game = none := by
    cases hw : w.game
    · simp [end_game, hw]
    · simp [end_game, hw]
  have hnoop : ∀ (w2 : World), w2.game = none →
      (∀ res, end_game w2 res = w2) ∧
      (∀ r2, finish_vote w2 r2 = (w2, none)) ∧
      guess_timeout w2 = w2 ∧
      (∀ a, endgame_command w2 a = w2) ∧
      (∀ u t, handle_guess w2 u t = w2) := by
    intro w2 h2
    refine ⟨?_, ?_, ?_, ?_, ?_⟩
    · intro res
      simp [end_game, h2]
    · intro r2
      simp [finish_vote, h2]
    · simp [guess_timeout, h2]
    · intro a
      simp [endgame_command, h2]
    · intro u t
      simp [handle_guess, h2]
  obtain ⟨h1, h2, h3, h4, h5⟩ := hnoop (end_game w result) hg
  exact ⟨hg, h1 result2, h2 r, h3, h4 auth, h5 uid txt⟩

/-- C1 (amended): in the spy_bot engine a voting round that closes with
zero votes aborts the game: the session is removed, nothing is
eliminated and no statistics are written, so no win is recorded for
anyone.  In the game_logic variant zero votes yield winner spy with no
eliminated player, and the database finalization then records a win
exactly for the spy and a loss for every other roster player, the
impostor-favorable default of the claim. -/
theorem c1_zero_votes (g : Game) (w : World) (r : Nat) (spyId : Nat)
    (others : List Nat) (hw : w.game = some g) (hv : g.votes = []) :
    finish_vote w r = ({ game := none, stats := w.stats }, some .aborted) ∧
    calculate_results [] spyId = ("spy", none) ∧
    (∀ p ∈ others, dbPlayerWon "spy" spyId p = (p == spyId)) := by
  refine ⟨?_, rfl, ?_⟩
  · simp [finish_vote, hw, hv]
  · intro p hp
    simp [dbPlayerWon,
      show (("spy" : String) == "spy") = true from rfl,
      show (("spy" : String) == "civilians") = false from rfl]

/-- C1 witness: the zero-vote world c1World satisfies the hypotheses
and the spy_bot close aborts it with the stats table untouched. -/
theorem c1_zero_votes_witness :
    c1World.game = some c1Game ∧ c1Game.votes = [] ∧
    finish_vote c1World 0 = ({ game := none, stats := c1World.stats },
      some FVOutcome.aborted) :=
  ⟨rfl, rfl, (c1_zero_votes c1Game c1World 0 0 [] rfl rfl).1⟩

/-- C1 counterexample: closing the zero-vote round of c1World removes
the game and leaves the stats table empty: no elimination is recorded,
but no impostor-side win is recorded for any roster player either, the
game is simply aborted without finalization. -/
theorem c1_counterexample :
    (finish_vote c1World 0).1.stats = [] ∧
    (finish_vote c1World 0).1.game = none ∧
    (finish_vote c1World 0).2 = some FVOutcome.aborted := by
  decide

/-- C3: the mode configuring two spies stores special two_spies, but
finish_vote dispatches on special == team_spy, so the removal and
re-vote code is dead: with every player voting for spy 1, the team
game is resolved by the single-spy branch, which treats the eliminated
impostor as innocent (the int chosen never equals the spy list) and
then raises TypeError formatting players.get of the list-valued spy
field, with roster and spy set untouched and no re-vote; the team
branch body itself would have produced the claimed re-vote (and a
civilian win when removing the last spy).  In the chaos game the
dispatched branch likewise never matches the spy list and raises
TypeError. -/
theorem c3_mode_dispatch_bug :
    (modeConfigOf c3TeamGame).special = some "two_spies" ∧
    1 ∈ spyIds c3TeamGame.spy ∧
    chooseEliminated c3TeamGame.votes 0 = 1 ∧
    finishVoteResolve c3TeamGame 1 = FVOutcome.tyError ∧
    teamSpyResolve c3TeamGame 1 =
      .revote { c3TeamGame with
                spy := .many [2],
                players := [(2, "B"), (3, "C"), (4, "D"), (5, "E"), (6, "F")] } ∧
    teamSpyResolve { c3TeamGame with spy := .many [1] } 1 =
      .civWin { c3TeamGame with
                spy := .many [],
                players := [(2, "B"), (3, "C"), (4, "D"), (5, "E"), (6, "F")] } ∧
    1 ∈ spyIds c3ChaosGame.spy ∧
    chooseEliminated c3ChaosGame.votes 0 = 1 ∧
    finishVoteResolve c3ChaosGame 1 = FVOutcome.tyError := by
  decide

/-- C9: every session mutation attempted from a phase in which it is
not legal, joining or leaving outside waiting, selecting a mode
outside mode_select, beginning outside waiting, returns the
invalid-phase error of its handler and leaves the whole session value
exactly unchanged, never partially applied. -/
theorem c9_wrong_phase_noop :
    (∀ (g : Game) (uid : Nat) (nm : String), g.state ≠ .waiting →
      join_handler g uid nm = (.errStarted, g)) ∧
    (∀ (g : Game) (uid : Nat), g.state ≠ .waiting →
      uid ∈ keys g.players →
      leave_handler g uid = (.errStarted, some g)) ∧
    (∀ (g : Game) (m : String), g.state ≠ .modeSelect →
      mode_callback g m = (.errInvalidPhase, g)) ∧
    (∀ (g : Game) (auth : Bool) (s1 s2 s3 s4 : Nat) (fs : Nat → Nat),
      g.state ≠ .waiting →
      begin_handler g auth s1 s2 s3 s4 fs = (.errNoGame, g, [])) := by
  refine ⟨?_, ?_, ?_, ?_⟩
  · intro g uid nm h
    unfold join_handler
    rw [if_pos h]
  · intro g uid h hmem
    unfold leave_handler
    rw [if_neg (fun hc => hc ((contains_iff_mem _ _).mpr hmem)),
      if_pos h]
  · intro g m h
    unfold mode_callback
    rw [if_pos h]
  · intro g auth s1 s2 s3 s4 fs h
    unfold begin_handler
    rw [if_pos h]

/-- C9 witness: the started game c9Game rejects join, leave, mode
selection and begin, each returning its phase error with the session
untouched. -/
theorem c9_wrong_phase_noop_witness :
    (c9Game.state ≠ GState.waiting) ∧ 1 ∈ keys c9Game.players ∧
    (c9Game.state ≠ GState.modeSelect) ∧
    join_handler c9Game 2 "B" = (.errStarted, c9Game) ∧
    leave_handler c9Game 1 = (.errStarted, some c9Game) ∧
    mode_callback c9Game "speed" = (.errInvalidPhase, c9Game) ∧
    begin_handler c9Game true 0 0 0 0 (fun _ => 0) =
      (.errNoGame, c9Game, []) :=
  ⟨by decide, by decide, by decide,
    c9_wrong_phase_noop.1 c9Game 2 "B" (by decide),
    c9_wrong_phase_noop.2.1 c9Game 1 (by decide) (by decide),
    c9_wrong_phase_noop.2.2.1 c9Game "speed" (by decide),
    c9_wrong_phase_noop.2.2.2 c9Game true 0 0 0 0 (fun _ => 0) (by decide)⟩

theorem deadTimer_fields (d : Nat) (s1 s2 : TSys)
    (ht : s2.timers = s1.timers) (hn : s2.nextId = s1.nextId)
    (h : deadTimer d s1) : deadTimer d s2 := by
  unfold deadTimer at h ⊢
  rw [ht, hn]
  exact h

theorem deadTimer_subTimers (d : Nat) (s : TSys)
    (ts : List (Nat × TKind)) (hsub : ∀ e ∈ ts, e ∈ s.timers)
    (h : deadTimer d s) : deadTimer d { s with timers := ts } := by
  obtain ⟨h1, h2, h3⟩ := h
  exact ⟨fun e he => h1 e (hsub e he), h2, fun e he => h3 e (hsub e he)⟩

theorem deadTimer_armT (d : Nat) (k : TKind) (s : TSys)
    (h : deadTimer d s) : deadTimer d (armT k s) := by
  obtain ⟨h1, h2, h3⟩ := h
  unfold armT
  refine ⟨?_, ?_, ?_⟩
  · intro e he
    rcases List.mem_append.mp he with he | he
    · exact Nat.lt_succ_of_lt (h1 e he)
    · rw [List.mem_singleton] at he
      subst he
      exact Nat.lt_succ_self _
  · exact Nat.lt_succ_of_lt h2
  · intro e he
    rcases List.mem_append.mp he with he | he
    · exact h3 e he
    · rw [List.mem_singleton] at he
      subst he
      omega

theorem deadTimer_clearT (d : Nat) (s : TSys) (h : deadTimer d s) :
    deadTimer d (clearT s) :=
  deadTimer_subTimers d s [] (fun e he => absurd he (List.not_mem_nil e)) h

theorem deadTimer_removeGameT (d : Nat) (s : TSys) (h : deadTimer d s) :
    deadTimer d (removeGameT s) :=
  ⟨fun e he => absurd he (List.not_mem_nil e), h.2.1,
    fun e he => absurd he (List.not_mem_nil e)⟩

theorem deadTimer_startVotingT (d : Nat) (s : TSys)
    (h : deadTimer d s) : deadTimer d (startVotingT s) := by
  unfold startVotingT
  cases hs : s.sess with
  | none => exact h
  | some g =>
    dsimp only
    by_cases hg : g.state = .started
    · rw [if_pos hg]
      apply deadTimer_armT
      apply deadTimer_armT
      exact deadTimer_fields d s _ rfl rfl h
    · rw [if_neg hg]
      exact h

theorem deadTimer_finishVoteT (d : Nat) (s : TSys) (r : Nat)
    (h : deadTimer d s) : deadTimer d (finishVoteT s r) := by
  unfold finishVoteT
  cases hs : s.sess with
  | none => exact h
  | some g =>
    dsimp only
    have hc : deadTimer d (clearT s) := deadTimer_clearT d s h
    by_cases hv : g.votes = []
    · rw [if_pos hv]
      exact deadTimer_removeGameT d _ hc
    · rw [if_neg hv]
      cases finishVoteResolve g (chooseEliminated g.votes r) with
      | civWin g2 => exact deadTimer_removeGameT d _ hc
      | spyWin g2 => exact deadTimer_removeGameT d _ hc
      | revote g2 =>
        apply deadTimer_startVotingT
        exact deadTimer_fields d (clearT s) _ rfl rfl hc
      | awaitGuess g2 =>
        apply deadTimer_armT
        exact deadTimer_fields d (clearT s) _ rfl rfl hc
      | tyError => exact hc
      | aborted => exact deadTimer_removeGameT d _ hc

theorem deadTimer_fireTimerT (d : Nat) (s : TSys) (i r : Nat)
    (h : deadTimer d s) : deadTimer d (fireTimerT s i r) := by
  unfold fireTimerT
  cases hf : s.timers.find? (fun e => e.1 == i) with
  | none => exact h
  | some e =>
    obtain ⟨eid, ek⟩ := e
    dsimp only
    have hs1 : deadTimer d
        { s with timers := s.timers.filter (fun e2 => e2.1 != i) } :=
      deadTimer_subTimers d s _
        (fun e2 he2 => List.mem_of_mem_filter he2) h
    cases ek with
    | discussion =>
      cases hs2 : s.sess with
      | none => exact hs1
      | some g =>
        dsimp only
        by_cases hg : g.state = .started
        · rw [if_pos hg]
          exact deadTimer_startVotingT d _ hs1
        · rw [if_neg hg]
          exact hs1
    | voting =>
      cases hs2 : s.sess with
      | none => exact hs1
      | some g =>
        dsimp only
        by_cases hg : g.state = .started
        · rw [if_pos hg]
          exact deadTimer_finishVoteT d _ r hs1
        · rw [if_neg hg]
          exact hs1
    | progress => exact hs1
    | guess =>
      cases hs2 : s.sess with
      | none => exact hs1
      | some g =>
        dsimp only
        by_cases hg : g.awaitingGuess = true
        · rw [if_pos hg]
          exact deadTimer_removeGameT d _ hs1
        · rw [if_neg hg]
          exact hs1

theorem deadTimer_stepT (d : Nat) (s : TSys) (ev : Ev)
    (h : deadTimer d s) : deadTimer d (stepT s ev) := by
  cases ev with
  | voteCmd =>
    unfold stepT voteCmdT
    cases hs : s.sess with
    | none => exact h
    | some g =>
      dsimp only
      by_cases hg : g.state = .started
      · rw [if_pos hg]
        exact deadTimer_startVotingT d _ (deadTimer_clearT d s h)
      · rw [if_neg hg]
        exact h
  | castV v t r =>
    unfold stepT castVoteT
    cases hs : s.sess with
    | none => exact h
    | some g =>
      dsimp only
      have hup : deadTimer d { s with sess := some (vote_callback g v t).2 } :=
        deadTimer_fields d s _ rfl rfl h
      by_cases hc :
          ((vote_callback g v t).1 && votingComplete (vote_callback g v t).2) = true
      · rw [if_pos hc]
        exact deadTimer_finishVoteT d _ r hup
      · rw [if_neg hc]
        exact hup
  | fire i r => exact deadTimer_fireTimerT d s i r h
  | endCmd a =>
    unfold stepT endCmdT
    cases hs : s.sess with
    | none => exact h
    | some g =>
      dsimp only
      by_cases ha : a = true
      · rw [if_pos ha]
        exact deadTimer_removeGameT d s h
      · rw [if_neg ha]
        exact h
  | guessEv u =>
    unfold stepT handleGuessT
    cases hs : s.sess with
    | none => exact h
    | some g =>
      dsimp only
      by_cases hg : (g.awaitingGuess && pyEqSpy u g.spy) = true
      · rw [if_pos hg]
        apply deadTimer_removeGameT
        exact deadTimer_fields d s _ rfl rfl h
      · rw [if_neg hg]
        exact h

theorem deadTimer_runT (d : Nat) (evs : List Ev) :
    ∀ (s : TSys), deadTimer d s → deadTimer d (runT s evs) := by
  induction evs with
  | nil => intro s h; exact h
  | cons ev evs ih =>
    intro s h
    exact ih (stepT s ev) (deadTimer_stepT d s ev h)

theorem fireTimerT_dead (s : TSys) (i r : Nat)
    (h : ∀ e ∈ s.timers, e.1 ≠ i) : fireTimerT s i r = s := by
  have hf : s.timers.find? (fun e => e.1 == i) = none := by
    rw [List.find?_eq_none]
    intro x hx
    simp [h x hx]
  unfold fireTimerT
  rw [hf]

/-- C8: firing a timer whose handle is not live is a silent no-op on
the whole system; and the discussion timer armed on a started session
and then superseded by the manual vote command stays dead in every
reachable continuation, so however late it fires it changes nothing,
in particular it never starts a second voting round. -/
theorem c8_stale_timer_noop (s : TSys) (g : Game)
    (hsess : s.sess = some g) (hstate : g.state = .started) :
    (∀ (s2 : TSys) (i r : Nat), (∀ e ∈ s2.timers, e.1 ≠ i) →
      fireTimerT s2 i r = s2) ∧
    (∀ (evs : List Ev) (r : Nat),
      fireTimerT (runT (stepT (armT .discussion s) .voteCmd) evs)
          s.nextId r =
        runT (stepT (armT .discussion s) .voteCmd) evs) := by
  refine ⟨fun s2 i r h => fireTimerT_dead s2 i r h, ?_⟩
  intro evs r
  have h0 : deadTimer s.nextId (stepT (armT .discussion s) .voteCmd) := by
    show deadTimer s.nextId (voteCmdT (armT .discussion s))
    unfold voteCmdT
    have hsess2 : (armT .discussion s).sess = some g := hsess
    rw [hsess2]
    dsimp only
    rw [if_pos hstate]
    apply deadTimer_startVotingT
    refine ⟨?_, ?_, ?_⟩
    · intro e he
      exact absurd he (List.not_mem_nil e)
    · show s.nextId < s.nextId + 1
      omega
    · intro e he
      exact absurd he (List.not_mem_nil e)
  have hdead := deadTimer_runT s.nextId evs _ h0
  exact fireTimerT_dead _ _ r hdead.2.2

/-- C8 witness: in the concrete room c8Sys, after begin arms the
discussion timer and the vote command supersedes it, firing the stale
handle after a further vote event changes nothing. -/
theorem c8_stale_timer_noop_witness :
    c8Sys.sess = some c8Game ∧ c8Game.state = GState.started ∧
    fireTimerT (runT (stepT (armT .discussion c8Sys) .voteCmd)
        [Ev.castV 1 2 0]) c8Sys.nextId 0 =
      runT (stepT (armT .discussion c8Sys) .voteCmd) [Ev.castV 1 2 0] :=
  ⟨rfl, rfl,
    (c8_stale_timer_noop c8Sys c8Game rfl rfl).2 [Ev.castV 1 2 0] 0⟩
